import Mathlib

/-!
Shallow embedding of `src/staff_pwa.py`: the staff PWA routes of a
restaurant backend — login, role-based queue selection (tables /
production / delivery / orders) and the order action dispatcher
(chef_ready, accept_order, pay_order, change_status, order creation).

Relational rows become structures, the database becomes lists of rows,
SQL queries become list filters/sorts, and each route handler becomes a
function from the database (plus request data) to a response and the
committed database.  Per spec §4.2 the HTML card rendering is projected
to structured response values instead of markup.  The ORM session is out
of scope (spec §1); its transaction semantics are modelled as in spec
§5/§7: mutations persist exactly when the handler reaches
`session.commit()`, and a transaction abandoned by an exception leaves
the persisted state unchanged.
-/

namespace StaffPWA

/-- Row of `OrderStatus`: a named status with boolean facets, as read by
`staff_pwa.py` (completed/cancelled mark it terminal; the visibility
flags drive the production queues). -/
structure OrderStatus where
  id : Nat
  name : String
  is_completed_status : Bool
  is_cancelled_status : Bool
  visible_to_chef : Bool
  visible_to_bartender : Bool
deriving DecidableEq, Repr

/-- Row of `OrderItem` as used by the module: snapshot name, quantity,
snapshot price and the preparation area (`'bar'` routes to the bar
queue; anything else — including NULL — to the kitchen queue). -/
structure OrderItem where
  product_id : Nat
  product_name : String
  quantity : Int
  price_at_moment : Rat
  preparation_area : Option String
deriving DecidableEq, Repr

/-- Row of `Order` restricted to the fields `staff_pwa.py` touches. -/
structure Order where
  id : Nat
  status_id : Nat
  table_id : Option Nat
  courier_id : Option Nat
  accepted_by_waiter_id : Option Nat
  kitchen_done : Bool
  bar_done : Bool
  payment_method : Option String
  total_price : Rat
  is_delivery : Bool
  customer_name : Option String
  phone_number : Option String
  address : Option String
  order_type : Option String
  delivery_time : Option String
  items : List OrderItem
deriving DecidableEq, Repr

/-- Row of `Role`: the capability flags consulted by the module. -/
structure Role where
  name : String
  can_serve_tables : Bool
  can_receive_kitchen_orders : Bool
  can_receive_bar_orders : Bool
  can_be_assigned : Bool
deriving DecidableEq, Repr

/-- Row of `Employee` with its (eagerly loaded) role. -/
structure Employee where
  id : Nat
  full_name : String
  phone_number : String
  password_hash : Option String
  is_on_shift : Bool
  role : Role
deriving DecidableEq, Repr

/-- Row of `Table`; `assigned_waiters` is the many-to-many list of
employee ids. -/
structure Table where
  id : Nat
  name : String
  assigned_waiters : List Nat
deriving DecidableEq, Repr

/-- Row of `Product` restricted to the fields order creation reads. -/
structure Product where
  id : Nat
  name : String
  price : Rat
  preparation_area : Option String
deriving DecidableEq, Repr

/-- Row of the append-only `OrderStatusHistory` audit log. -/
structure OrderStatusHistory where
  order_id : Nat
  status_id : Nat
  actor_info : String
deriving DecidableEq, Repr

/-- The database state visible to this module.  `nextOrderId` models the
autoincrement sequence that `session.flush()` draws a fresh `Order.id`
from. -/
structure DB where
  statuses : List OrderStatus
  orders : List Order
  tables : List Table
  products : List Product
  history : List OrderStatusHistory
  nextOrderId : Nat
deriving DecidableEq, Repr

/-! ### Sorting helpers (the `order_by` clauses) -/

/-- The relation behind `order_by(Order.id.asc())`. -/
def idAsc (a b : Order) : Prop := a.id ≤ b.id

instance : DecidableRel idAsc := fun a b => Nat.decLe a.id b.id

instance : IsTotal Order idAsc := ⟨fun a b => Nat.le_total a.id b.id⟩

instance : IsTrans Order idAsc := ⟨fun _ _ _ h1 h2 => Nat.le_trans h1 h2⟩

/-- The relation behind `order_by(Order.id.desc())`. -/
def idDesc (a b : Order) : Prop := b.id ≤ a.id

instance : DecidableRel idDesc := fun a b => Nat.decLe b.id a.id

instance : IsTotal Order idDesc := ⟨fun a b => Nat.le_total b.id a.id⟩

instance : IsTrans Order idDesc := ⟨fun _ _ _ h1 h2 => Nat.le_trans h2 h1⟩

/-- Sort by ascending `id` (`order_by(Order.id.asc())`). -/
def sortByIdAsc (l : List Order) : List Order := l.insertionSort idAsc

/-- Sort by descending `id` (`order_by(Order.id.desc())`). -/
def sortByIdDesc (l : List Order) : List Order := l.insertionSort idDesc

/-! ### Shared lookups -/

/-- Terminal facet of a status row: completed or cancelled. -/
def isTerminalStatus (s : OrderStatus) : Bool :=
  s.is_completed_status || s.is_cancelled_status

/-- The repeated query `select(OrderStatus.id).where(or_(is_completed,
is_cancelled))`. -/
def finalStatusIds (db : DB) : List Nat :=
  (db.statuses.filter fun s => isTerminalStatus s).map fun s => s.id

/-- `session.get(OrderStatus, sid)` — lookup by primary key. -/
def statusById (db : DB) (sid : Nat) : Option OrderStatus :=
  db.statuses.find? fun s => s.id == sid

/-- `select(OrderStatus).where(name == n).limit(1)` — first row with the
given name, in model order. -/
def statusByName (db : DB) (n : String) : Option OrderStatus :=
  db.statuses.find? fun s => s.name == n

/-- `select(OrderStatus).where(is_completed_status == True).limit(1)`. -/
def firstCompletedStatus (db : DB) : Option OrderStatus :=
  db.statuses.find? fun s => s.is_completed_status

/-- `session.get(Order, oid)` — lookup by primary key. -/
def findOrder (db : DB) (oid : Nat) : Option Order :=
  db.orders.find? fun o => o.id == oid

/-- `session.get(Table, tid)` — lookup by primary key. -/
def findTable (db : DB) (tid : Nat) : Option Table :=
  db.tables.find? fun t => t.id == tid

/-- Lookup of a product by id out of the batch `select(Product).where(
Product.id.in_(prod_ids))` / `products_map`. -/
def productById (db : DB) (pid : Nat) : Option Product :=
  db.products.find? fun p => p.id == pid

/-- Spec-level predicate: the order's current status is terminal (some
status row carries its id and is completed or cancelled). -/
def orderTerminal (db : DB) (o : Order) : Prop :=
  ∃ s ∈ db.statuses, s.id = o.status_id ∧ isTerminalStatus s = true

instance (db : DB) (o : Order) : Decidable (orderTerminal db o) := by
  unfold orderTerminal; infer_instance

/-! ### Queue selection (`GET /staff/api/data`) -/

/-- Orders counted as active for a table card: at this table and not in
a terminal status (`view == "tables"` branch of `get_staff_data`). -/
def activeTableOrders (db : DB) (tid : Nat) : List Order :=
  db.orders.filter fun o =>
    o.table_id == some tid && !((finalStatusIds db).contains o.status_id)

/-- The busy count shown on a table card. -/
def tableActiveCount (db : DB) (tid : Nat) : Nat :=
  (activeTableOrders db tid).length

/-- Which production station a queue card belongs to. -/
inductive Station where
  | kitchen
  | bar
deriving DecidableEq, Repr

/-- One production-queue card: the order it shows, the station, and the
items listed on it (post area filtering). -/
structure ProductionEntry where
  order_id : Nat
  station : Station
  items : List OrderItem
deriving DecidableEq, Repr

/-- Ids of chef-visible statuses. -/
def chefVisibleIds (db : DB) : List Nat :=
  (db.statuses.filter fun s => s.visible_to_chef).map fun s => s.id

/-- Ids of bartender-visible statuses. -/
def barVisibleIds (db : DB) : List Nat :=
  (db.statuses.filter fun s => s.visible_to_bartender).map fun s => s.id

/-- Kitchen half of `_get_production_orders`: chef-visible status,
`kitchen_done == False`, ascending id, items with area ≠ 'bar', and an
order with no such items produces no card. -/
def kitchenEntries (db : DB) : List ProductionEntry :=
  if (chefVisibleIds db).isEmpty then []
  else
    (sortByIdAsc (db.orders.filter fun o =>
        (chefVisibleIds db).contains o.status_id && !o.kitchen_done)).filterMap
      fun o =>
        if (o.items.filter fun i => !(i.preparation_area == some "bar")).isEmpty then
          none
        else
          some { order_id := o.id, station := Station.kitchen,
                 items := o.items.filter fun i => !(i.preparation_area == some "bar") }

/-- Bar half of `_get_production_orders`: bartender-visible status,
`bar_done == False`, ascending id, items with area = 'bar'. -/
def barEntries (db : DB) : List ProductionEntry :=
  if (barVisibleIds db).isEmpty then []
  else
    (sortByIdAsc (db.orders.filter fun o =>
        (barVisibleIds db).contains o.status_id && !o.bar_done)).filterMap
      fun o =>
        if (o.items.filter fun i => i.preparation_area == some "bar").isEmpty then
          none
        else
          some { order_id := o.id, station := Station.bar,
                 items := o.items.filter fun i => i.preparation_area == some "bar" }

/-- `_get_production_orders`: kitchen cards (if the role receives
kitchen orders) followed by bar cards (if the role receives bar
orders). -/
def productionOrders (db : DB) (e : Employee) : List ProductionEntry :=
  (if e.role.can_receive_kitchen_orders then kitchenEntries db else []) ++
  (if e.role.can_receive_bar_orders then barEntries db else [])

/-- `_get_courier_orders`: the employee's assigned, non-terminal orders,
newest first. -/
def courierOrders (db : DB) (e : Employee) : List Order :=
  sortByIdDesc (db.orders.filter fun o =>
    o.courier_id == some e.id && !((finalStatusIds db).contains o.status_id))

/-- The subquery `select(Table.id).where(Table.assigned_waiters.any(
Employee.id == employee.id))` tested with `Order.table_id.in_`. -/
def tableAssignedToEmployee (db : DB) (tid eid : Nat) : Bool :=
  ((db.tables.filter fun t => t.assigned_waiters.contains eid).map
    fun t => t.id).contains tid

/-- `_get_general_orders`: non-terminal orders newest first; a
table-serving employee additionally sees only orders accepted by them or
sitting at one of their tables. -/
def generalOrders (db : DB) (e : Employee) : List Order :=
  sortByIdDesc
    (if e.role.can_serve_tables then
      (db.orders.filter fun o =>
          !((finalStatusIds db).contains o.status_id)).filter
        fun o =>
          o.accepted_by_waiter_id == some e.id ||
            (match o.table_id with
             | some tid => tableAssignedToEmployee db tid e.id
             | none => false)
    else db.orders.filter fun o => !((finalStatusIds db).contains o.status_id))

/-! ### The data endpoint (`GET /staff/api/data`) -/

/-- Lexicographic byte-order on strings for `order_by(Table.name)`. -/
def charListLe : List Char → List Char → Bool
  | [], _ => true
  | _ :: _, [] => false
  | a :: as, b :: bs =>
    if a.toNat < b.toNat then true
    else if b.toNat < a.toNat then false
    else charListLe as bs

/-- Sort tables by name (`order_by(Table.name)`). -/
def sortByName (l : List Table) : List Table :=
  l.insertionSort fun a b => charListLe a.name.toList b.name.toList = true

/-- `select(Table).where(Table.assigned_waiters.any(Employee.id ==
employee.id)).order_by(Table.name)`. -/
def myTables (db : DB) (e : Employee) : List Table :=
  sortByName (db.tables.filter fun t => t.assigned_waiters.contains e.id)

/-- Structured projection of the JSON/HTML fragments `get_staff_data`
returns (spec §4.2 allows a structured response object in place of
markup).  `offShift` is the placeholder shown whenever the employee is
not on shift; `tablesView` carries (table id, table name, busy count)
per card. -/
inductive DataResp where
  | offShift
  | emptyState (msg : String)
  | tablesView (cards : List (Nat × String × Nat))
  | productionView (entries : List ProductionEntry)
  | deliveryView (shown : List Order)
  | ordersView (shown : List Order)
  | unknownView
deriving DecidableEq, Repr

/-- `get_staff_data` (`GET /staff/api/data?view=...`): short-circuits to
the off-shift placeholder before any queue selection, then branches on
the view and the role's capabilities exactly as the source's
`if`/`elif` chain does. -/
def get_staff_data (db : DB) (e : Employee) (view : String) : DataResp :=
  if !e.is_on_shift then .offShift
  else if view == "tables" && e.role.can_serve_tables then
    let tables := myTables db e
    if tables.isEmpty then .emptyState "За вами не закреплено столиков."
    else .tablesView (tables.map fun t => (t.id, t.name, tableActiveCount db t.id))
  else if view == "production" then
    let entries := productionOrders db e
    if entries.isEmpty then .emptyState "Заказов в очереди нет."
    else .productionView entries
  else if view == "delivery" && e.role.can_be_assigned then
    let shown := courierOrders db e
    if shown.isEmpty then .emptyState "Нет назначенных заказов."
    else .deliveryView shown
  else if view == "orders" then
    let shown := generalOrders db e
    if shown.isEmpty then .emptyState "Активных заказов нет."
    else .ordersView shown
  else .unknownView

/-! ### Action dispatcher (`POST /staff/api/action`) -/

/-- JSON response of an action: HTTP status code, success flag, error
message if any. -/
structure ApiResp where
  status_code : Nat
  success : Bool
  error : Option String
deriving DecidableEq, Repr

/-- The `{"success": True}` response. -/
def okResp : ApiResp := { status_code := 200, success := true, error := none }

/-- An error response with the given HTTP status code and message. -/
def errResp (code : Nat) (msg : String) : ApiResp :=
  { status_code := code, success := false, error := some msg }

/-- Calls this module makes into the cash service and the notification
fan-out during one request: `link_order_to_shift` invocations,
`register_employee_debt` invocations (both keyed by (order id, employee
id)), and the number of notification calls that completed. -/
structure Effects where
  shift_links : List (Nat × Nat)
  debt_regs : List (Nat × Nat)
  notices : Nat
deriving DecidableEq, Repr

/-- No collaborator calls. -/
def noEffects : Effects := { shift_links := [], debt_regs := [], notices := 0 }

/-- Persist an updated order row (the ORM write-back at commit). -/
def updateOrder (db : DB) (o' : Order) : DB :=
  { db with orders := db.orders.map fun p => if p.id == o'.id then o' else p }

/-- `session.add(OrderStatusHistory(...))` persisted at commit. -/
def addHistory (db : DB) (oid sid : Nat) (actor : String) : DB :=
  { db with history :=
      db.history ++ [{ order_id := oid, status_id := sid, actor_info := actor }] }

/-- Station-flag update applied by the `chef_ready` action: the extra
field selects `kitchen_done` or `bar_done`; any other value changes
nothing. -/
def chefUpd (o : Order) (extra : String) : Order :=
  if extra == "kitchen" then { o with kitchen_done := true }
  else if extra == "bar" then { o with bar_done := true }
  else o

/-- Action `chef_ready` of `handle_action_api`.  The source awaits
`notify_station_completion` BEFORE `session.commit()`; a raising
notification therefore aborts the handler inside the `try`, the commit
never runs, and the flag update is abandoned with the transaction
(`notifyOk = false` models the notification call raising; the outer
`except` converts it to a 500 response). -/
def handle_chef_ready (db : DB) (orderId : Nat) (extra : String) (notifyOk : Bool) :
    ApiResp × DB × Effects :=
  match findOrder db orderId with
  | none => (errResp 404 "Not found", db, noEffects)
  | some o =>
    if notifyOk then
      (okResp, updateOrder db (chefUpd o extra),
        { shift_links := [], debt_regs := [], notices := 1 })
    else (errResp 500 "Action Error", db, noEffects)

/-- Action `accept_order` of `handle_action_api`: conflict if already
accepted, otherwise set the acceptor, move to the "В обробці" status
when configured (appending history), commit, then notify.  The commit
precedes the notification, so the mutation persists even when
`notifyOk = false`. -/
def handle_accept_order (db : DB) (e : Employee) (orderId : Nat) (notifyOk : Bool) :
    ApiResp × DB × Effects :=
  match findOrder db orderId with
  | none => (errResp 404 "Not found", db, noEffects)
  | some o =>
    if o.accepted_by_waiter_id.isSome then (errResp 400 "Уже занято", db, noEffects)
    else
      let o1 := { o with accepted_by_waiter_id := some e.id }
      let committed :=
        match statusByName db "В обробці" with
        | some ps =>
          addHistory (updateOrder db { o1 with status_id := ps.id }) o.id ps.id
            e.full_name
        | none => updateOrder db o1
      ((if notifyOk then okResp else errResp 500 "Action Error"), committed,
        { shift_links := [], debt_regs := [],
          notices := if notifyOk then 1 else 0 })

/-- Action `pay_order` of `handle_action_api`: configuration error (and
no mutation) when no completed status exists; otherwise set the terminal
status and the payment method, link the order to the shift, register the
employee debt when paying cash, append history, commit, then notify. -/
def handle_pay_order (db : DB) (e : Employee) (orderId : Nat)
    (payment_method : String) (notifyOk : Bool) : ApiResp × DB × Effects :=
  match findOrder db orderId with
  | none => (errResp 404 "Not found", db, noEffects)
  | some o =>
    match firstCompletedStatus db with
    | none => (errResp 500 "Status config error", db, noEffects)
    | some fs =>
      let o' := { o with status_id := fs.id, payment_method := some payment_method }
      let committed :=
        addHistory (updateOrder db o') o.id fs.id (e.full_name ++ " (Оплата)")
      ((if notifyOk then okResp else errResp 500 "Action Error"), committed,
        { shift_links := [(o.id, e.id)],
          debt_regs := if payment_method == "cash" then [(o.id, e.id)] else [],
          notices := if notifyOk then 1 else 0 })

/-- Action `change_status` of `handle_action_api`.  When the requested
status id resolves to no row, the source's `new_status.is_completed_status`
dereferences `None` and raises before `session.commit()`; the outer
`except` returns a 500 and the uncommitted in-memory assignment of
`order.status_id` is abandoned with the transaction, so the persisted
state is unchanged.  Otherwise: set the status, run the cash-service
calls when the new status is terminal (debt only for a cash order),
append history, commit, then notify. -/
def handle_change_status (db : DB) (e : Employee) (orderId newStatusId : Nat)
    (notifyOk : Bool) : ApiResp × DB × Effects :=
  match findOrder db orderId with
  | none => (errResp 404 "Not found", db, noEffects)
  | some o =>
    match statusById db newStatusId with
    | none => (errResp 500 "AttributeError", db, noEffects)
    | some ns =>
      let o' := { o with status_id := newStatusId }
      let committed :=
        addHistory (updateOrder db o') o.id newStatusId e.full_name
      ((if notifyOk then okResp else errResp 500 "Action Error"), committed,
        { shift_links := if ns.is_completed_status then [(o.id, e.id)] else [],
          debt_regs :=
            if ns.is_completed_status && o.payment_method == some "cash" then
              [(o.id, e.id)]
            else [],
          notices := if notifyOk then 1 else 0 })

/-- A parsed request body of `POST /staff/api/action`. -/
inductive ActionReq where
  | chef_ready (orderId : Nat) (extra : String)
  | accept_order (orderId : Nat)
  | pay_order (orderId : Nat) (payment_method : String)
  | change_status (orderId : Nat) (newStatusId : Nat)
  | unknown
deriving DecidableEq, Repr

/-- `handle_action_api`: dispatch on the `action` field. -/
def handle_action_api (db : DB) (e : Employee) (req : ActionReq) (notifyOk : Bool) :
    ApiResp × DB × Effects :=
  match req with
  | .chef_ready oid extra => handle_chef_ready db oid extra notifyOk
  | .accept_order oid => handle_accept_order db e oid notifyOk
  | .pay_order oid pm => handle_pay_order db e oid pm notifyOk
  | .change_status oid sid => handle_change_status db e oid sid notifyOk
  | .unknown =>
    ({ status_code := 200, success := false, error := some "Unknown action" },
      db, noEffects)

/-! ### Order creation (`POST /staff/api/order/create`) -/

/-- One entry of the request cart: product id and requested quantity
(already through `int(...)`). -/
structure CartItem where
  id : Nat
  qty : Int
deriving DecidableEq, Repr

/-- Loop body of `create_waiter_order`: skip entries whose product id
did not resolve or whose quantity is not positive; otherwise accumulate
`price * qty` into the total and append the snapshot `OrderItem`. -/
def cartStep (db : DB) (acc : Rat × List OrderItem) (item : CartItem) :
    Rat × List OrderItem :=
  match productById db item.id with
  | none => acc
  | some prod =>
    if item.qty > 0 then
      (acc.1 + prod.price * (item.qty : Rat),
        acc.2 ++ [{ product_id := prod.id, product_name := prod.name,
                    quantity := item.qty, price_at_moment := prod.price,
                    preparation_area := prod.preparation_area }])
    else acc

/-- `create_waiter_order`: reject when the table is missing or the cart
is empty/falsy; fold the cart into (total, items); reject when no item
survived the filtering; otherwise create the order (status "Новий" when
configured, else status id 1) accepted by the acting employee, append
the creation history entry and commit.  The notification is awaited
after the commit, so `notifyOk = false` only changes the response, not
the committed state. -/
def create_waiter_order (db : DB) (e : Employee) (tableId : Nat)
    (cart : List CartItem) (notifyOk : Bool) : ApiResp × DB :=
  match findTable db tableId with
  | none => (errResp 400 "Invalid data", db)
  | some table =>
    if cart.isEmpty then (errResp 400 "Invalid data", db)
    else
      let acc := cart.foldl (cartStep db) (0, [])
      if acc.2.isEmpty then (errResp 400 "Корзина пуста", db)
      else
        let status_id :=
          match statusByName db "Новий" with
          | some ns => ns.id
          | none => 1
        let oid := db.nextOrderId
        let order : Order :=
          { id := oid, status_id := status_id, table_id := some tableId,
            courier_id := none, accepted_by_waiter_id := some e.id,
            kitchen_done := false, bar_done := false, payment_method := none,
            total_price := acc.1, is_delivery := false,
            customer_name := some ("Стіл: " ++ table.name),
            phone_number := some ("table_" ++ toString tableId),
            address := none, order_type := some "in_house",
            delivery_time := some "In House", items := acc.2 }
        let db' :=
          addHistory
            { db with orders := db.orders ++ [order],
                      nextOrderId := db.nextOrderId + 1 }
            oid status_id (e.full_name ++ " (PWA)")
        ((if notifyOk then okResp else errResp 500 "Action Error"), db')

/-- Spec-level effective cart: the entries whose product id resolves and
whose quantity is positive, paired with the resolved product. -/
def effectiveCart (db : DB) (cart : List CartItem) : List (Product × Int) :=
  cart.filterMap fun (item : CartItem) =>
    match productById db item.id with
    | none => none
    | some p => if item.qty > 0 then some (p, item.qty) else none

/-- Spec-level total: sum of resolved price × quantity over the
effective cart. -/
def specTotal (db : DB) (cart : List CartItem) : Rat :=
  ((effectiveCart db cart).map fun pq => pq.1.price * (pq.2 : Rat)).sum

/-- Snapshot item built from one effective-cart entry. -/
def snapshotItem (pq : Product × Int) : OrderItem :=
  { product_id := pq.1.id, product_name := pq.1.name, quantity := pq.2,
    price_at_moment := pq.1.price, preparation_area := pq.1.preparation_area }

/-! ### One umbrella over every state-changing operation of this core -/

/-- A state-changing operation of this module that touches orders. -/
inductive CoreOp where
  | api (req : ActionReq)
  | createOrder (tableId : Nat) (cart : List CartItem)
deriving Repr

/-- Committed database after running a core operation. -/
def runCoreOp (db : DB) (e : Employee) (op : CoreOp) (notifyOk : Bool) : DB :=
  match op with
  | .api req => (handle_action_api db e req notifyOk).2.1
  | .createOrder tid cart => (create_waiter_order db e tid cart notifyOk).2

/-- Database sanity invariant: order ids are unique and below the
autoincrement counter. -/
def ordersWellFormed (db : DB) : Prop :=
  (db.orders.map fun o => o.id).Nodup ∧ ∀ p ∈ db.orders, p.id < db.nextOrderId

instance (db : DB) : Decidable (ordersWellFormed db) := by
  unfold ordersWellFormed; infer_instance

/-! ### Login (`POST /staff/login`) -/

/-- `''.join(filter(str.isdigit, phone))`. -/
def cleanPhone (phone : String) : String :=
  String.mk (phone.toList.filter fun c => c.isDigit)

/-- Bool-valued "starts with" on character lists. -/
def charsStartWith : List Char → List Char → Bool
  | [], _ => true
  | _ :: _, [] => false
  | a :: as, b :: bs => a == b && charsStartWith as bs

/-- Bool-valued "occurs inside" on character lists: the needle occurs
contiguously in the haystack (SQL `LIKE '%needle%'`). -/
def charsOccurIn (needle : List Char) : List Char → Bool
  | [] => needle.isEmpty
  | b :: bs => charsStartWith needle (b :: bs) || charsOccurIn needle bs

/-- `Employee.phone_number.ilike(f"%clean_phone%")` — the cleaned input
occurs in the stored phone number (digits only, so case is moot). -/
def phoneMatches (stored input : String) : Bool :=
  charsOccurIn (cleanPhone input).toList stored.toList

/-- Python truthiness of the stored hash: `not employee.password_hash`
is true for NULL and for the empty string. -/
def hashUnset (h : Option String) : Bool :=
  match h with
  | none => true
  | some s => s == ""

/-- Outcome of `POST /staff/login`: a 400 page with a message, or a
redirect that set the `staff_access_token` cookie (flag: httponly). -/
inductive LoginResult where
  | badRequest (msg : String)
  | redirectWithCookie (employee_id : Nat) (httponly : Bool)
deriving DecidableEq, Repr

/-- `login_action`: find the first employee whose phone number contains
the cleaned digits; 400 when none.  An unset/empty password hash admits
only the literal password "admin" (temporary admin entry); a set hash is
checked with `verify_password` (abstracted as `verify`).  On success a
httponly session cookie is set and the response redirects. -/
def login_action (employees : List Employee) (verify : String → String → Bool)
    (phone password : String) : LoginResult :=
  match employees.find? (fun emp => phoneMatches emp.phone_number phone) with
  | none => .badRequest "Пользователь не найден"
  | some emp =>
    if hashUnset emp.password_hash then
      if password == "admin" then .redirectWithCookie emp.id true
      else .badRequest "Пароль еще не установлен."
    else if verify password (emp.password_hash.getD "") then
      .redirectWithCookie emp.id true
    else .badRequest "Неверный пароль"

/-! ### Concrete fixtures used by counterexamples and witnesses -/

/-- Baseline order fixture; examples override individual fields. -/
def baseOrder : Order :=
  { id := 0, status_id := 0, table_id := none, courier_id := none,
    accepted_by_waiter_id := none, kitchen_done := false, bar_done := false,
    payment_method := none, total_price := 0, is_delivery := false,
    customer_name := none, phone_number := none, address := none,
    order_type := none, delivery_time := none, items := [] }

/-- Baseline status fixture. -/
def baseStatus : OrderStatus :=
  { id := 0, name := "", is_completed_status := false,
    is_cancelled_status := false, visible_to_chef := false,
    visible_to_bartender := false }

/-- Baseline role fixture. -/
def baseRole : Role :=
  { name := "", can_serve_tables := false, can_receive_kitchen_orders := false,
    can_receive_bar_orders := false, can_be_assigned := false }

/-- Baseline employee fixture (on shift). -/
def baseEmployee : Employee :=
  { id := 0, full_name := "", phone_number := "", password_hash := none,
    is_on_shift := true, role := baseRole }

/-- Empty database fixture. -/
def emptyDB : DB :=
  { statuses := [], orders := [], tables := [], products := [], history := [],
    nextOrderId := 1 }

/-- Status "Новий": non-terminal, visible to both stations. -/
def exStNew : OrderStatus :=
  { baseStatus with
    id := 1, name := "Новий", visible_to_chef := true,
    visible_to_bartender := true }

/-- A completed status that is also chef-visible (operators configure the
facets independently). -/
def exStDoneVis : OrderStatus :=
  { baseStatus with
    id := 2, name := "Готово", is_completed_status := true,
    visible_to_chef := true }

/-- A kitchen-area item: Soup x1. -/
def exSoup : OrderItem :=
  { product_id := 10, product_name := "Soup", quantity := 1,
    price_at_moment := 50, preparation_area := some "kitchen" }

/-- A bar-area item: Cola x2. -/
def exCola : OrderItem :=
  { product_id := 11, product_name := "Cola", quantity := 2,
    price_at_moment := 20, preparation_area := some "bar" }

/-- Order #7 of the spec's production example. -/
def exOrd7 : Order :=
  { baseOrder with
    id := 7, status_id := 1, table_id := some 3,
    total_price := 90, items := [exSoup, exCola] }

/-- An employee receiving both kitchen and bar orders. -/
def exChefBoth : Employee :=
  { baseEmployee with
    id := 5, full_name := "Chef",
    role := { baseRole with
    name := "chef", can_receive_kitchen_orders := true,
              can_receive_bar_orders := true } }

/-- Database of the production example. -/
def exDb6 : DB := { emptyDB with
    statuses := [exStNew], orders := [exOrd7],
                    nextOrderId := 8 }

/-- A terminal order whose (completed) status is chef-visible. -/
def exOrdTerm : Order :=
  { baseOrder with
    id := 5, status_id := 2, items := [exSoup] }

/-- Database for the C1 counterexample: a completed, chef-visible status. -/
def exDb1 : DB := { emptyDB with
    statuses := [exStDoneVis], orders := [exOrdTerm],
                    nextOrderId := 6 }

/-- Order n+1 on the non-terminal status 1. -/
def exOrdN (n : Nat) : Order := { baseOrder with
    id := n + 1, status_id := 1 }

/-- Database with 31 non-terminal orders. -/
def exDb31 : DB :=
  { emptyDB with
    statuses := [exStNew], orders := (List.range 31).map exOrdN,
    nextOrderId := 40 }

/-- An employee whose role serves no tables (admin/operator). -/
def exViewer : Employee :=
  { baseEmployee with
    id := 9, full_name := "Admin",
    role := { baseRole with
    name := "admin" } }

/-- A waiter employee. -/
def exWaiter : Employee :=
  { baseEmployee with
    id := 1, full_name := "W",
    role := { baseRole with
    name := "waiter", can_serve_tables := true } }

/-- The processing status looked up by accept_order. -/
def exStProc : OrderStatus := { baseStatus with
    id := 3, name := "В обробці" }

/-- An order already accepted by waiter 2. -/
def exOrdAccepted : Order :=
  { baseOrder with
    id := 20, status_id := 1, accepted_by_waiter_id := some 2 }

/-- An order not yet accepted. -/
def exOrdFree : Order := { baseOrder with
    id := 21, status_id := 1 }

/-- Database for the accept_order witness. -/
def exDb3 : DB :=
  { emptyDB with
    statuses := [exStNew, exStProc],
    orders := [exOrdAccepted, exOrdFree], nextOrderId := 22 }

/-- A completed (terminal) status configured for payment. -/
def exStDone : OrderStatus :=
  { baseStatus with
    id := 4, name := "Завершено", is_completed_status := true }

/-- Database for the pay_order witness: a completed status exists. -/
def exDb4 : DB :=
  { emptyDB with
    statuses := [exStNew, exStDone], orders := [exOrdAccepted],
    nextOrderId := 21 }

/-- Database without any completed status (pay_order config error). -/
def exDb4none : DB :=
  { emptyDB with
    statuses := [exStNew], orders := [exOrdAccepted],
    nextOrderId := 21 }

/-- Product fixtures for order creation. -/
def exProdSoup : Product :=
  { id := 10, name := "Soup", price := 50, preparation_area := some "kitchen" }

/-- Bar product fixture. -/
def exProdCola : Product :=
  { id := 11, name := "Cola", price := 20, preparation_area := some "bar" }

/-- Table 3, assigned to waiter 1. -/
def exTbl3 : Table := { id := 3, name := "T3", assigned_waiters := [1] }

/-- Database for the creation witness. -/
def exDb7 : DB :=
  { emptyDB with
    statuses := [exStNew], tables := [exTbl3],
    products := [exProdSoup, exProdCola], nextOrderId := 1 }

/-- Cart: one resolving entry, one unknown product id, one zero
quantity, one resolving entry with quantity 2. -/
def exCart : List CartItem :=
  [{ id := 10, qty := 1 }, { id := 99, qty := 5 }, { id := 11, qty := 0 },
   { id := 11, qty := 2 }]

/-- Cart whose entries all fail the filtering. -/
def exCartBad : List CartItem := [{ id := 99, qty := 5 }, { id := 11, qty := 0 }]

/-- An employee with an unset password hash (admin backdoor input). -/
def exEmpNoHash : Employee :=
  { baseEmployee with
    id := 1, full_name := "X", phone_number := "0501234567",
    role := { baseRole with
    can_serve_tables := true } }

/-- A verifier that rejects every password. -/
def verNone (_password _hash : String) : Bool := false

/-- An off-shift chef. -/
def exOffShift : Employee := { exChefBoth with
    is_on_shift := false }

/-- A closed order sitting on the terminal, non-visible status 4. -/
def exOrdClosed : Order := { baseOrder with
    id := 30, status_id := 4, table_id := some 3 }

/-- Database for the C1 witness: the only status is completed and
visible to no station. -/
def exDb1w : DB := { emptyDB with
    statuses := [exStDone], orders := [exOrdClosed], tables := [exTbl3],
    nextOrderId := 31 }

/-! ## Helper lemmas -/

theorem mem_finalStatusIds {db : DB} {sid : Nat} :
    sid ∈ finalStatusIds db ↔
      ∃ s ∈ db.statuses, s.id = sid ∧ isTerminalStatus s = true := by
  simp only [finalStatusIds, List.mem_map, List.mem_filter]
  constructor
  · rintro ⟨s, ⟨hs, ht⟩, rfl⟩
    exact ⟨s, hs, rfl, ht⟩
  · rintro ⟨s, hs, rfl, ht⟩
    exact ⟨s, ⟨hs, ht⟩, rfl⟩

theorem contains_final_iff {db : DB} {o : Order} :
    (finalStatusIds db).contains o.status_id = true ↔ orderTerminal db o := by
  rw [orderTerminal]
  rw [← mem_finalStatusIds]
  simp

theorem not_contains_final_iff {db : DB} {o : Order} :
    (!(finalStatusIds db).contains o.status_id) = true ↔ ¬ orderTerminal db o := by
  rw [← contains_final_iff]
  simp

theorem mem_chefVisibleIds {db : DB} {sid : Nat} :
    sid ∈ chefVisibleIds db ↔
      ∃ s ∈ db.statuses, s.id = sid ∧ s.visible_to_chef = true := by
  simp only [chefVisibleIds, List.mem_map, List.mem_filter]
  constructor
  · rintro ⟨s, ⟨hs, ht⟩, rfl⟩
    exact ⟨s, hs, rfl, ht⟩
  · rintro ⟨s, hs, rfl, ht⟩
    exact ⟨s, ⟨hs, ht⟩, rfl⟩

theorem mem_barVisibleIds {db : DB} {sid : Nat} :
    sid ∈ barVisibleIds db ↔
      ∃ s ∈ db.statuses, s.id = sid ∧ s.visible_to_bartender = true := by
  simp only [barVisibleIds, List.mem_map, List.mem_filter]
  constructor
  · rintro ⟨s, ⟨hs, ht⟩, rfl⟩
    exact ⟨s, hs, rfl, ht⟩
  · rintro ⟨s, hs, rfl, ht⟩
    exact ⟨s, ⟨hs, ht⟩, rfl⟩

theorem mem_sortByIdAsc {l : List Order} {o : Order} : o ∈ sortByIdAsc l ↔ o ∈ l :=
  List.mem_insertionSort idAsc

theorem mem_sortByIdDesc {l : List Order} {o : Order} : o ∈ sortByIdDesc l ↔ o ∈ l :=
  List.mem_insertionSort idDesc

theorem findOrder_mem {db : DB} {oid : Nat} {o : Order}
    (h : findOrder db oid = some o) : o ∈ db.orders ∧ o.id = oid := by
  refine ⟨List.mem_of_find?_eq_some h, ?_⟩
  have := List.find?_some h
  simpa using this

theorem id_injective {db : DB} (hnd : (db.orders.map fun o => o.id).Nodup)
    {p q : Order} (hp : p ∈ db.orders) (hq : q ∈ db.orders) (h : p.id = q.id) :
    p = q :=
  List.inj_on_of_nodup_map hnd hp hq h

theorem find?_replace_self (l : List Order) (o o' : Order) (ho : o ∈ l)
    (hid : o.id = o'.id) :
    ((l.map fun p => if p.id == o'.id then o' else p).find? fun q =>
      q.id == o'.id) = some o' := by
  induction l with
  | nil => cases ho
  | cons a as ih =>
    rw [List.map_cons]
    by_cases ha : a.id = o'.id
    · have he : (if a.id == o'.id then o' else a) = o' := by
        rw [if_pos (by simpa using ha)]
      rw [he, List.find?_cons]
      simp
    · have he : (if a.id == o'.id then o' else a) = a := by
        rw [if_neg (by simpa using ha)]
      have hoas : o ∈ as := by
        rcases List.mem_cons.mp ho with h | h
        · exact absurd (h ▸ hid) ha
        · exact h
      have hf : (a.id == o'.id) = false := by simpa using ha
      rw [he, List.find?_cons, hf]
      exact ih hoas

theorem find?_replace_other (l : List Order) (o' : Order) (oid : Nat)
    (hne : oid ≠ o'.id) :
    ((l.map fun p => if p.id == o'.id then o' else p).find? fun q =>
      q.id == oid) = l.find? fun q => q.id == oid := by
  induction l with
  | nil => rfl
  | cons a as ih =>
    rw [List.map_cons]
    by_cases ha : a.id = o'.id
    · have he : (if a.id == o'.id then o' else a) = o' := by
        rw [if_pos (by simpa using ha)]
      have h1 : (o'.id == oid) = false := by
        simpa using fun h => hne h.symm
      have h2 : (a.id == oid) = false := by
        simpa [ha] using fun h => hne h.symm
      rw [he, List.find?_cons, List.find?_cons, h1, h2]
      exact ih
    · have he : (if a.id == o'.id then o' else a) = a := by
        rw [if_neg (by simpa using ha)]
      rw [he, List.find?_cons, List.find?_cons]
      by_cases hao : a.id = oid
      · have ht : (a.id == oid) = true := by simpa using hao
        rw [ht]
      · have hf : (a.id == oid) = false := by simpa using hao
        rw [hf]
        exact ih

theorem addHistory_orders (db : DB) (oid sid : Nat) (a : String) :
    (addHistory db oid sid a).orders = db.orders := rfl

theorem findOrder_addHistory (db : DB) (oid' sid : Nat) (a : String) (oid : Nat) :
    findOrder (addHistory db oid' sid a) oid = findOrder db oid := rfl

theorem findOrder_after_update {db : DB} {oid : Nat} {o : Order} (o' : Order)
    (hfind : findOrder db oid = some o) (hid : o'.id = oid) :
    findOrder (updateOrder db o') oid = some o' := by
  obtain ⟨hmem, hoid⟩ := findOrder_mem hfind
  have := find?_replace_self db.orders o o' hmem (by rw [hoid, hid])
  unfold findOrder updateOrder
  simpa [hid] using this

theorem mem_activeTableOrders {db : DB} {tid : Nat} {o : Order} :
    o ∈ activeTableOrders db tid ↔
      o ∈ db.orders ∧ o.table_id = some tid ∧ ¬ orderTerminal db o := by
  unfold activeTableOrders
  rw [List.mem_filter]
  constructor
  · rintro ⟨h1, h2⟩
    rw [Bool.and_eq_true] at h2
    exact ⟨h1, by simpa using h2.1, not_contains_final_iff.mp h2.2⟩
  · rintro ⟨h1, h2, h3⟩
    refine ⟨h1, ?_⟩
    rw [Bool.and_eq_true]
    exact ⟨by simpa using h2, not_contains_final_iff.mpr h3⟩

theorem mem_courierOrders {db : DB} {e : Employee} {o : Order} :
    o ∈ courierOrders db e ↔
      o ∈ db.orders ∧ o.courier_id = some e.id ∧ ¬ orderTerminal db o := by
  unfold courierOrders
  rw [mem_sortByIdDesc, List.mem_filter]
  constructor
  · rintro ⟨h1, h2⟩
    rw [Bool.and_eq_true] at h2
    exact ⟨h1, by simpa using h2.1, not_contains_final_iff.mp h2.2⟩
  · rintro ⟨h1, h2, h3⟩
    refine ⟨h1, ?_⟩
    rw [Bool.and_eq_true]
    exact ⟨by simpa using h2, not_contains_final_iff.mpr h3⟩

theorem mem_generalOrders {db : DB} {e : Employee} {o : Order} :
    o ∈ generalOrders db e ↔
      o ∈ db.orders ∧ ¬ orderTerminal db o ∧
        (e.role.can_serve_tables = true →
          (o.accepted_by_waiter_id == some e.id ||
            (match o.table_id with
             | some tid => tableAssignedToEmployee db tid e.id
             | none => false)) = true) := by
  unfold generalOrders
  rw [mem_sortByIdDesc]
  cases hcs : e.role.can_serve_tables
  · rw [if_neg (by simp [hcs]), List.mem_filter]
    constructor
    · rintro ⟨h1, h2⟩
      exact ⟨h1, not_contains_final_iff.mp h2, fun hE => absurd hE (by simp [hcs])⟩
    · rintro ⟨h1, h2, -⟩
      exact ⟨h1, not_contains_final_iff.mpr h2⟩
  · rw [if_pos (by simp [hcs]), List.mem_filter, List.mem_filter]
    constructor
    · rintro ⟨⟨h1, h2⟩, h3⟩
      exact ⟨h1, not_contains_final_iff.mp h2, fun _ => h3⟩
    · rintro ⟨h1, h2, h3⟩
      exact ⟨⟨h1, not_contains_final_iff.mpr h2⟩, h3 rfl⟩

theorem tableAssigned_iff {db : DB} {tid eid : Nat} :
    tableAssignedToEmployee db tid eid = true ↔
      ∃ t ∈ db.tables, t.id = tid ∧ eid ∈ t.assigned_waiters := by
  unfold tableAssignedToEmployee
  constructor
  · intro h
    have hm : tid ∈ (db.tables.filter fun t =>
        t.assigned_waiters.contains eid).map fun t => t.id := by
      simpa using h
    rw [List.mem_map] at hm
    obtain ⟨t, htf, hid⟩ := hm
    rw [List.mem_filter] at htf
    exact ⟨t, htf.1, hid, by simpa using htf.2⟩
  · rintro ⟨t, ht, rfl, hw⟩
    have hm : t.id ∈ (db.tables.filter fun u =>
        u.assigned_waiters.contains eid).map fun u => u.id :=
      List.mem_map.mpr ⟨t, List.mem_filter.mpr ⟨ht, by simpa using hw⟩, rfl⟩
    simpa using hm

theorem waiterPred_iff {db : DB} {e : Employee} {o : Order} :
    (o.accepted_by_waiter_id == some e.id ||
      (match o.table_id with
       | some tid => tableAssignedToEmployee db tid e.id
       | none => false)) = true ↔
      (o.accepted_by_waiter_id = some e.id ∨
        ∃ t ∈ db.tables, o.table_id = some t.id ∧ e.id ∈ t.assigned_waiters) := by
  rw [Bool.or_eq_true, beq_iff_eq]
  apply or_congr Iff.rfl
  cases htid : o.table_id with
  | none => simp
  | some tid =>
    rw [tableAssigned_iff]
    constructor
    · rintro ⟨t, ht, rfl, hw⟩
      exact ⟨t, ht, rfl, hw⟩
    · rintro ⟨t, ht, hot, hw⟩
      exact ⟨t, ht, (Option.some_inj.mp hot).symm, hw⟩

theorem mem_kitchenEntries {db : DB} {en : ProductionEntry} :
    en ∈ kitchenEntries db ↔
      ∃ o ∈ db.orders,
        (chefVisibleIds db).contains o.status_id = true ∧
        o.kitchen_done = false ∧
        (o.items.filter fun i => !(i.preparation_area == some "bar")) ≠ [] ∧
        en = { order_id := o.id, station := Station.kitchen,
               items := o.items.filter fun i =>
                 !(i.preparation_area == some "bar") } := by
  unfold kitchenEntries
  by_cases hni : (chefVisibleIds db).isEmpty
  · rw [if_pos hni]
    simp only [List.not_mem_nil, false_iff]
    rintro ⟨o, -, hcont, -⟩
    rw [List.isEmpty_iff] at hni
    rw [hni] at hcont
    simp at hcont
  · rw [if_neg hni, List.mem_filterMap]
    constructor
    · rintro ⟨o, ho, heq⟩
      rw [mem_sortByIdAsc, List.mem_filter, Bool.and_eq_true] at ho
      by_cases hit :
          (o.items.filter fun i => !(i.preparation_area == some "bar")).isEmpty
      · rw [if_pos hit] at heq
        cases heq
      · rw [if_neg hit] at heq
        refine ⟨o, ho.1, ho.2.1, by simpa using ho.2.2, ?_, ?_⟩
        · simpa [List.isEmpty_iff] using hit
        · exact (Option.some_inj.mp heq).symm
    · rintro ⟨o, ho, hcont, hkd, hne, rfl⟩
      refine ⟨o, ?_, ?_⟩
      · rw [mem_sortByIdAsc, List.mem_filter, Bool.and_eq_true]
        exact ⟨ho, hcont, by simp [hkd]⟩
      · rw [if_neg (by simpa [List.isEmpty_iff] using hne)]

theorem mem_barEntries {db : DB} {en : ProductionEntry} :
    en ∈ barEntries db ↔
      ∃ o ∈ db.orders,
        (barVisibleIds db).contains o.status_id = true ∧
        o.bar_done = false ∧
        (o.items.filter fun i => i.preparation_area == some "bar") ≠ [] ∧
        en = { order_id := o.id, station := Station.bar,
               items := o.items.filter fun i =>
                 i.preparation_area == some "bar" } := by
  unfold barEntries
  by_cases hni : (barVisibleIds db).isEmpty
  · rw [if_pos hni]
    simp only [List.not_mem_nil, false_iff]
    rintro ⟨o, -, hcont, -⟩
    rw [List.isEmpty_iff] at hni
    rw [hni] at hcont
    simp at hcont
  · rw [if_neg hni, List.mem_filterMap]
    constructor
    · rintro ⟨o, ho, heq⟩
      rw [mem_sortByIdAsc, List.mem_filter, Bool.and_eq_true] at ho
      by_cases hit :
          (o.items.filter fun i => i.preparation_area == some "bar").isEmpty
      · rw [if_pos hit] at heq
        cases heq
      · rw [if_neg hit] at heq
        refine ⟨o, ho.1, ho.2.1, by simpa using ho.2.2, ?_, ?_⟩
        · simpa [List.isEmpty_iff] using hit
        · exact (Option.some_inj.mp heq).symm
    · rintro ⟨o, ho, hcont, hkd, hne, rfl⟩
      refine ⟨o, ?_, ?_⟩
      · rw [mem_sortByIdAsc, List.mem_filter, Bool.and_eq_true]
        exact ⟨ho, hcont, by simp [hkd]⟩
      · rw [if_neg (by simpa [List.isEmpty_iff] using hne)]

theorem mem_productionOrders {db : DB} {e : Employee} {en : ProductionEntry} :
    en ∈ productionOrders db e ↔
      (e.role.can_receive_kitchen_orders = true ∧ en ∈ kitchenEntries db) ∨
      (e.role.can_receive_bar_orders = true ∧ en ∈ barEntries db) := by
  unfold productionOrders
  rw [List.mem_append]
  cases hk : e.role.can_receive_kitchen_orders <;>
    cases hb : e.role.can_receive_bar_orders <;> simp [hk, hb]

/-! ## Claim theorems -/

/-- C10: for every view value, an employee whose `is_on_shift` flag is
false receives the off-shift placeholder from `get_staff_data` before
any queue selection, and the response is independent of the database, so
no table/production/delivery/general order data is disclosed (the
selector itself is read-only). -/
theorem off_shift_short_circuit (db : DB) (e : Employee) (view : String)
    (h : e.is_on_shift = false) :
    get_staff_data db e view = DataResp.offShift ∧
    ∀ db2 : DB, get_staff_data db2 e view = get_staff_data db e view := by
  refine ⟨by simp [get_staff_data, h], fun db2 => by simp [get_staff_data, h]⟩

/-- Witness for C10 at a concrete off-shift employee, two views, and a
database holding queue data. -/
theorem off_shift_short_circuit_witness :
    get_staff_data exDb6 exOffShift "production" = DataResp.offShift ∧
    get_staff_data exDb31 exOffShift "orders" = DataResp.offShift := by
  exact ⟨(off_shift_short_circuit exDb6 exOffShift "production" rfl).1,
    (off_shift_short_circuit exDb31 exOffShift "orders" rfl).1⟩

/-- C5: `change_status` with a `statusId` that resolves to no
`OrderStatus` row returns an error response and leaves the database —
hence the order's persisted status and every other field — unchanged
(the source raises on `None.is_completed_status` before
`session.commit()`, so the in-memory assignment is abandoned with the
transaction). -/
theorem change_status_unknown_status (db : DB) (e : Employee) (oid sid : Nat)
    (nk : Bool) (o : Order) (hfind : findOrder db oid = some o)
    (hmiss : statusById db sid = none) :
    handle_change_status db e oid sid nk =
      (errResp 500 "AttributeError", db, noEffects) := by
  simp [handle_change_status, hfind, hmiss]

/-- Witness for C5: status id 99 exists in no status row of `exDb3`. -/
theorem change_status_unknown_status_witness :
    handle_change_status exDb3 exWaiter 20 99 true =
      (errResp 500 "AttributeError", exDb3, noEffects) := by
  exact change_status_unknown_status exDb3 exWaiter 20 99 true exOrdAccepted rfl rfl

/-- C1 counterexample: order 5 is terminal (its status row is marked
completed) yet it appears in the chef production queue, because
`_get_production_orders` filters only on `visible_to_chef` and
`kitchen_done`, never on terminality. -/
theorem terminal_order_in_production_queue :
    exOrdTerm ∈ exDb1.orders ∧ orderTerminal exDb1 exOrdTerm ∧
    ((productionOrders exDb1 exChefBoth).map fun en => en.order_id) =
      [exOrdTerm.id] := by
  refine ⟨by decide, by decide, by decide⟩

/-- C1 (amended): a terminal (completed or cancelled) order never
appears in a table's busy count, in the courier delivery queue, or in
the general orders listing; it is also absent from the production
queues provided no status row carrying its id is chef-visible or
bartender-visible — the production query filters on the visibility
facets and the done flags, not on terminality. -/
theorem terminal_orders_excluded (db : DB) (o : Order) (ho : o ∈ db.orders)
    (hterm : orderTerminal db o) :
    (∀ tid, o ∉ activeTableOrders db tid) ∧
    (∀ e, o ∉ courierOrders db e) ∧
    (∀ e, o ∉ generalOrders db e) ∧
    ((db.orders.map fun p => p.id).Nodup →
      (∀ s ∈ db.statuses, s.id = o.status_id →
        s.visible_to_chef = false ∧ s.visible_to_bartender = false) →
      ∀ e, ∀ en ∈ productionOrders db e, en.order_id ≠ o.id) := by
  refine ⟨?_, ?_, ?_, ?_⟩
  · intro tid hmem
    exact absurd hterm (mem_activeTableOrders.mp hmem).2.2
  · intro e hmem
    exact absurd hterm (mem_courierOrders.mp hmem).2.2
  · intro e hmem
    exact absurd hterm (mem_generalOrders.mp hmem).2.1
  · intro hnd hvis e en hen heq
    rcases mem_productionOrders.mp hen with ⟨-, hk⟩ | ⟨-, hb⟩
    · rcases mem_kitchenEntries.mp hk with ⟨p, hp, hcont, -, -, rfl⟩
      have hpo : p = o := id_injective hnd hp ho (by simpa using heq)
      subst hpo
      have hm : p.status_id ∈ chefVisibleIds db := by simpa using hcont
      obtain ⟨s, hs, hsid, hv⟩ := mem_chefVisibleIds.mp hm
      have hf := (hvis s hs hsid).1
      rw [hf] at hv
      cases hv
    · rcases mem_barEntries.mp hb with ⟨p, hp, hcont, -, -, rfl⟩
      have hpo : p = o := id_injective hnd hp ho (by simpa using heq)
      subst hpo
      have hm : p.status_id ∈ barVisibleIds db := by simpa using hcont
      obtain ⟨s, hs, hsid, hv⟩ := mem_barVisibleIds.mp hm
      have hf := (hvis s hs hsid).2
      rw [hf] at hv
      cases hv

/-- Witness for the amended C1 at a closed order on a completed,
non-visible status. -/
theorem terminal_orders_excluded_witness :
    exOrdClosed ∉ activeTableOrders exDb1w 3 ∧
    exOrdClosed ∉ courierOrders exDb1w exViewer ∧
    exOrdClosed ∉ generalOrders exDb1w exWaiter ∧
    ∀ en ∈ productionOrders exDb1w exChefBoth, en.order_id ≠ exOrdClosed.id := by
  obtain ⟨h1, h2, h3, h4⟩ :=
    terminal_orders_excluded exDb1w exOrdClosed (by decide) (by decide)
  exact ⟨h1 3, h2 exViewer, h3 exWaiter, h4 (by decide) (by decide) exChefBoth⟩

/-- C2 counterexample: with 31 non-terminal orders and an employee whose
role cannot serve tables, the orders view returns all 31 orders — the
source query of `_get_general_orders` has no cap of 30. -/
theorem general_orders_uncapped :
    exViewer.role.can_serve_tables = false ∧
    (∀ o ∈ exDb31.orders, ¬ orderTerminal exDb31 o) ∧
    (generalOrders exDb31 exViewer).length = 31 := by
  refine ⟨rfl, by decide, by decide⟩

/-- C2 (amended): the orders view is capped in neither case: for a role
that cannot serve tables it returns exactly the non-terminal orders, and
for a table-serving employee exactly the non-terminal orders accepted by
that employee or sitting at a table assigned to them; the listing is
newest-first in both cases. -/
theorem general_orders_spec (db : DB) (e : Employee) :
    (e.role.can_serve_tables = false →
      ∀ o, o ∈ generalOrders db e ↔ o ∈ db.orders ∧ ¬ orderTerminal db o) ∧
    (e.role.can_serve_tables = true →
      ∀ o, o ∈ generalOrders db e ↔
        o ∈ db.orders ∧ ¬ orderTerminal db o ∧
          (o.accepted_by_waiter_id = some e.id ∨
            ∃ t ∈ db.tables, o.table_id = some t.id ∧
              e.id ∈ t.assigned_waiters)) ∧
    (generalOrders db e).Pairwise idDesc := by
  refine ⟨?_, ?_, ?_⟩
  · intro hcs o
    rw [mem_generalOrders]
    constructor
    · rintro ⟨h1, h2, -⟩
      exact ⟨h1, h2⟩
    · rintro ⟨h1, h2⟩
      exact ⟨h1, h2, fun hE => absurd hE (by simp [hcs])⟩
  · intro hcs o
    rw [mem_generalOrders]
    constructor
    · rintro ⟨h1, h2, h3⟩
      exact ⟨h1, h2, waiterPred_iff.mp (h3 hcs)⟩
    · rintro ⟨h1, h2, h3⟩
      exact ⟨h1, h2, fun _ => waiterPred_iff.mpr h3⟩
  · exact List.sorted_insertionSort idDesc _

/-- Witness for the amended C2: the 31-order database, viewed by the
non-serving role, lists exactly its orders, e.g. order 31 is listed. -/
theorem general_orders_spec_witness :
    exOrdN 30 ∈ generalOrders exDb31 exViewer ∧
    (generalOrders exDb31 exViewer).Pairwise idDesc := by
  refine ⟨?_, (general_orders_spec exDb31 exViewer).2.2⟩
  exact ((general_orders_spec exDb31 exViewer).1 rfl (exOrdN 30)).mpr
    (by decide)

/-- C9: the committed database does not depend on the notification
outcome for accept_order, pay_order, change_status and order creation —
their commit precedes the notification call; for chef_ready, however,
the notification is awaited before the commit, so a raising notification
always leaves the database unchanged (the station-flag update is lost);
the last two conjuncts evaluate this divergence on order 7. -/
theorem notification_failure_commit_behavior (db : DB) (e : Employee)
    (oid sid tid : Nat) (pm extra : String) (cart : List CartItem) :
    (handle_accept_order db e oid false).2.1 =
      (handle_accept_order db e oid true).2.1 ∧
    (handle_pay_order db e oid pm false).2.1 =
      (handle_pay_order db e oid pm true).2.1 ∧
    (handle_change_status db e oid sid false).2.1 =
      (handle_change_status db e oid sid true).2.1 ∧
    (create_waiter_order db e tid cart false).2 =
      (create_waiter_order db e tid cart true).2 ∧
    (handle_chef_ready db oid extra false).2.1 = db ∧
    ((handle_chef_ready exDb6 7 "kitchen" true).2.1.orders.map fun o =>
      o.kitchen_done) = [true] ∧
    (handle_chef_ready exDb6 7 "kitchen" false).2.1 = exDb6 := by
  refine ⟨?_, ?_, ?_, ?_, ?_, by decide, by decide⟩
  · unfold handle_accept_order
    cases findOrder db oid with
    | none => rfl
    | some o => cases h : o.accepted_by_waiter_id.isSome <;> simp [h]
  · unfold handle_pay_order
    cases findOrder db oid with
    | none => rfl
    | some o => cases firstCompletedStatus db <;> rfl
  · unfold handle_change_status
    cases findOrder db oid with
    | none => rfl
    | some o => cases statusById db sid <;> rfl
  · unfold create_waiter_order
    cases findTable db tid with
    | none => rfl
    | some t =>
      cases hc : cart.isEmpty <;> simp [hc]
      split <;> rfl
  · unfold handle_chef_ready
    cases findOrder db oid <;> rfl

theorem chefUpd_id (o : Order) (extra : String) : (chefUpd o extra).id = o.id := by
  unfold chefUpd
  split
  · rfl
  · split <;> rfl

theorem chefUpd_accepted (o : Order) (extra : String) :
    (chefUpd o extra).accepted_by_waiter_id = o.accepted_by_waiter_id := by
  unfold chefUpd
  split
  · rfl
  · split <;> rfl

theorem accepted_unique_unchanged {l : List Order}
    (hnd : (l.map fun o => o.id).Nodup) {p : Order} (hp : p ∈ l) {w : Nat}
    (hw : p.accepted_by_waiter_id = some w) :
    ∀ q ∈ l, q.id = p.id → q.accepted_by_waiter_id = some w := by
  intro q hq hqp
  have hqpe : q = p := List.inj_on_of_nodup_map hnd hq hp hqp
  rw [hqpe]
  exact hw

theorem accepted_preserved_in_replace {l : List Order}
    (hnd : (l.map fun o => o.id).Nodup) {o : Order} (o' : Order) (ho : o ∈ l)
    (hid : o'.id = o.id)
    (hacc : ∀ w, o.accepted_by_waiter_id = some w →
      o'.accepted_by_waiter_id = some w)
    {p : Order} (hp : p ∈ l) {w : Nat}
    (hw : p.accepted_by_waiter_id = some w) :
    ∀ q ∈ l.map fun r => if r.id == o'.id then o' else r, q.id = p.id →
      q.accepted_by_waiter_id = some w := by
  intro q hq hqp
  rw [List.mem_map] at hq
  obtain ⟨r, hr, rfl⟩ := hq
  by_cases hre : r.id = o'.id
  · rw [if_pos (by simpa using hre)] at hqp ⊢
    have hop : o = p :=
      List.inj_on_of_nodup_map hnd ho hp (by rw [← hid]; exact hqp)
    refine hacc w ?_
    rw [hop]
    exact hw
  · rw [if_neg (by simpa using hre)] at hqp ⊢
    have hrp : r = p := List.inj_on_of_nodup_map hnd hr hp hqp
    rw [hrp]
    exact hw

theorem accepted_preserved_api (db : DB) (e : Employee) (req : ActionReq)
    (nk : Bool) (hnd : (db.orders.map fun o => o.id).Nodup)
    {p : Order} (hp : p ∈ db.orders) {w : Nat}
    (hw : p.accepted_by_waiter_id = some w) :
    ∀ q ∈ (handle_action_api db e req nk).2.1.orders, q.id = p.id →
      q.accepted_by_waiter_id = some w := by
  cases req with
  | unknown => exact fun q hq hqp => accepted_unique_unchanged hnd hp hw q hq hqp
  | chef_ready oid extra =>
    cases hf : findOrder db oid with
    | none =>
      have hres : (handle_action_api db e (ActionReq.chef_ready oid extra) nk).2.1
          = db := by
        simp [handle_action_api, handle_chef_ready, hf]
      rw [hres]
      exact accepted_unique_unchanged hnd hp hw
    | some o =>
      obtain ⟨ho, hoid⟩ := findOrder_mem hf
      cases nk with
      | false =>
        have hres : (handle_action_api db e
            (ActionReq.chef_ready oid extra) false).2.1 = db := by
          simp [handle_action_api, handle_chef_ready, hf]
        rw [hres]
        exact accepted_unique_unchanged hnd hp hw
      | true =>
        have hres : (handle_action_api db e
            (ActionReq.chef_ready oid extra) true).2.1 =
            updateOrder db (chefUpd o extra) := by
          simp [handle_action_api, handle_chef_ready, hf]
        rw [hres]
        exact accepted_preserved_in_replace hnd (chefUpd o extra) ho
          (chefUpd_id o extra)
          (fun w' hw' => by rw [chefUpd_accepted]; exact hw') hp hw
  | accept_order oid =>
    cases hf : findOrder db oid with
    | none =>
      have hres : (handle_action_api db e (ActionReq.accept_order oid) nk).2.1
          = db := by
        simp [handle_action_api, handle_accept_order, hf]
      rw [hres]
      exact accepted_unique_unchanged hnd hp hw
    | some o =>
      obtain ⟨ho, hoid⟩ := findOrder_mem hf
      cases hso : o.accepted_by_waiter_id.isSome with
      | true =>
        have hres : (handle_action_api db e (ActionReq.accept_order oid) nk).2.1
            = db := by
          simp [handle_action_api, handle_accept_order, hf, hso]
        rw [hres]
        exact accepted_unique_unchanged hnd hp hw
      | false =>
        have honone : o.accepted_by_waiter_id = none := by
          cases hx : o.accepted_by_waiter_id
          · rfl
          · rw [hx] at hso
            cases hso
        cases hps : statusByName db "В обробці" with
        | some ps =>
          have hres : (handle_action_api db e (ActionReq.accept_order oid) nk).2.1
              = addHistory (updateOrder db
                  { o with
                    accepted_by_waiter_id := some e.id,
                    status_id := ps.id }) o.id ps.id e.full_name := by
            simp [handle_action_api, handle_accept_order, hf, hso, hps]
          rw [hres]
          intro q hq hqp
          rw [addHistory_orders] at hq
          exact accepted_preserved_in_replace hnd
            { o with
              accepted_by_waiter_id := some e.id,
              status_id := ps.id } ho rfl
            (fun w' hw' => absurd hw' (by simp [honone])) hp hw q hq hqp
        | none =>
          have hres : (handle_action_api db e (ActionReq.accept_order oid) nk).2.1
              = updateOrder db { o with
                accepted_by_waiter_id := some e.id } := by
            simp [handle_action_api, handle_accept_order, hf, hso, hps]
          rw [hres]
          exact accepted_preserved_in_replace hnd
            { o with
              accepted_by_waiter_id := some e.id } ho rfl
            (fun w' hw' => absurd hw' (by simp [honone])) hp hw
  | pay_order oid pm =>
    cases hf : findOrder db oid with
    | none =>
      have hres : (handle_action_api db e (ActionReq.pay_order oid pm) nk).2.1
          = db := by
        simp [handle_action_api, handle_pay_order, hf]
      rw [hres]
      exact accepted_unique_unchanged hnd hp hw
    | some o =>
      obtain ⟨ho, hoid⟩ := findOrder_mem hf
      cases hfs : firstCompletedStatus db with
      | none =>
        have hres : (handle_action_api db e (ActionReq.pay_order oid pm) nk).2.1
            = db := by
          simp [handle_action_api, handle_pay_order, hf, hfs]
        rw [hres]
        exact accepted_unique_unchanged hnd hp hw
      | some fs =>
        have hres : (handle_action_api db e (ActionReq.pay_order oid pm) nk).2.1
            = addHistory (updateOrder db
                { o with
                  status_id := fs.id,
                  payment_method := some pm })
                o.id fs.id (e.full_name ++ " (Оплата)") := by
          simp [handle_action_api, handle_pay_order, hf, hfs]
        rw [hres]
        intro q hq hqp
        rw [addHistory_orders] at hq
        exact accepted_preserved_in_replace hnd
          { o with
            status_id := fs.id,
            payment_method := some pm } ho rfl
          (fun w' hw' => hw') hp hw q hq hqp
  | change_status oid sid =>
    cases hf : findOrder db oid with
    | none =>
      have hres : (handle_action_api db e (ActionReq.change_status oid sid) nk).2.1
          = db := by
        simp [handle_action_api, handle_change_status, hf]
      rw [hres]
      exact accepted_unique_unchanged hnd hp hw
    | some o =>
      obtain ⟨ho, hoid⟩ := findOrder_mem hf
      cases hns : statusById db sid with
      | none =>
        have hres : (handle_action_api db e
            (ActionReq.change_status oid sid) nk).2.1 = db := by
          simp [handle_action_api, handle_change_status, hf, hns]
        rw [hres]
        exact accepted_unique_unchanged hnd hp hw
      | some ns =>
        have hres : (handle_action_api db e
            (ActionReq.change_status oid sid) nk).2.1 =
            addHistory (updateOrder db { o with status_id := sid })
              o.id sid e.full_name := by
          simp [handle_action_api, handle_change_status, hf, hns]
        rw [hres]
        intro q hq hqp
        rw [addHistory_orders] at hq
        exact accepted_preserved_in_replace hnd
          { o with
            status_id := sid } ho rfl
          (fun w' hw' => hw') hp hw q hq hqp

theorem accepted_preserved_create (db : DB) (e : Employee) (tid : Nat)
    (cart : List CartItem) (nk : Bool)
    (hnd : (db.orders.map fun o => o.id).Nodup)
    (hlt : ∀ p ∈ db.orders, p.id < db.nextOrderId)
    {p : Order} (hp : p ∈ db.orders) {w : Nat}
    (hw : p.accepted_by_waiter_id = some w) :
    ∀ q ∈ (create_waiter_order db e tid cart nk).2.orders, q.id = p.id →
      q.accepted_by_waiter_id = some w := by
  cases hft : findTable db tid with
  | none =>
    have hres : (create_waiter_order db e tid cart nk).2 = db := by
      simp [create_waiter_order, hft]
    rw [hres]
    exact accepted_unique_unchanged hnd hp hw
  | some t =>
    cases hc : cart.isEmpty with
    | true =>
      have hres : (create_waiter_order db e tid cart nk).2 = db := by
        simp [create_waiter_order, hft, hc]
      rw [hres]
      exact accepted_unique_unchanged hnd hp hw
    | false =>
      cases hi : (cart.foldl (cartStep db) (0, [])).2.isEmpty with
      | true =>
        have hres : (create_waiter_order db e tid cart nk).2 = db := by
          simp only [create_waiter_order, hft]
          rw [if_neg (by simp [hc]), if_pos hi]
        rw [hres]
        exact accepted_unique_unchanged hnd hp hw
      | false =>
        intro q hq hqp
        have hqe : q ∈ db.orders ∨ q.id = db.nextOrderId := by
          revert hq
          simp only [create_waiter_order, hft]
          rw [if_neg (by simp [hc]), if_neg (by simp [hi])]
          intro hq
          rcases List.mem_append.mp hq with hql | hqr
          · exact Or.inl hql
          · rcases List.mem_singleton.mp hqr with rfl
            exact Or.inr rfl
        rcases hqe with hql | hqr
        · exact accepted_unique_unchanged hnd hp hw q hql hqp
        · exfalso
          have := hlt p hp
          rw [← hqp, hqr] at this
          exact Nat.lt_irrefl _ this

/-- C3: accept_order on an already-accepted order answers the conflict
error and changes nothing; on an unaccepted order it records the acting
employee as acceptor and, exactly when the canonical processing status
"В обробці" is configured, moves the order to it and appends a history
entry; and no operation of this core (any api action or order creation)
ever clears or changes a set accepted_by_waiter_id. -/
theorem accept_order_spec (db : DB) (e : Employee) (oid : Nat) (o : Order)
    (nk : Bool) (hfind : findOrder db oid = some o) :
    (o.accepted_by_waiter_id.isSome = true →
      handle_accept_order db e oid nk =
        (errResp 400 "Уже занято", db, noEffects)) ∧
    (o.accepted_by_waiter_id = none →
      ∃ o2, findOrder (handle_accept_order db e oid nk).2.1 oid = some o2 ∧
        o2.accepted_by_waiter_id = some e.id ∧
        (∀ ps, statusByName db "В обробці" = some ps →
          o2.status_id = ps.id ∧
          (handle_accept_order db e oid nk).2.1.history =
            db.history ++ [{ order_id := oid, status_id := ps.id,
                             actor_info := e.full_name }]) ∧
        (statusByName db "В обробці" = none →
          o2.status_id = o.status_id ∧
          (handle_accept_order db e oid nk).2.1.history = db.history)) ∧
    (∀ db2 e2 op nk2 w p, ordersWellFormed db2 → p ∈ db2.orders →
      p.accepted_by_waiter_id = some w →
      ∀ q ∈ (runCoreOp db2 e2 op nk2).orders, q.id = p.id →
        q.accepted_by_waiter_id = some w) := by
  obtain ⟨homem, hoid⟩ := findOrder_mem hfind
  refine ⟨?_, ?_, ?_⟩
  · intro hs
    simp [handle_accept_order, hfind, hs]
  · intro hnone
    have hso : o.accepted_by_waiter_id.isSome = false := by rw [hnone]; rfl
    cases hps : statusByName db "В обробці" with
    | some ps =>
      have hred : (handle_accept_order db e oid nk).2.1 =
          addHistory (updateOrder db
            { o with
              accepted_by_waiter_id := some e.id,
              status_id := ps.id }) o.id ps.id e.full_name := by
        simp [handle_accept_order, hfind, hso, hps]
      refine ⟨{ o with
        accepted_by_waiter_id := some e.id,
        status_id := ps.id }, ?_, rfl, ?_, ?_⟩
      · rw [hred, findOrder_addHistory]
        exact findOrder_after_update _ hfind (by simpa using hoid)
      · intro ps' hps'
        cases Option.some_inj.mp hps'
        refine ⟨rfl, ?_⟩
        rw [hred]
        simp [addHistory, updateOrder, hoid]
      · intro hn
        cases hn
    | none =>
      have hred : (handle_accept_order db e oid nk).2.1 =
          updateOrder db { o with
            accepted_by_waiter_id := some e.id } := by
        simp [handle_accept_order, hfind, hso, hps]
      refine ⟨{ o with
        accepted_by_waiter_id := some e.id }, ?_, rfl, ?_, ?_⟩
      · rw [hred]
        exact findOrder_after_update _ hfind (by simpa using hoid)
      · intro ps' hps'
        cases hps'
      · intro hn
        refine ⟨rfl, ?_⟩
        rw [hred]
        simp [updateOrder]
  · rintro db2 e2 op nk2 w p ⟨hnd, hlt⟩ hp hw
    cases op with
    | api req => exact accepted_preserved_api db2 e2 req nk2 hnd hp hw
    | createOrder tid2 cart2 =>
      exact accepted_preserved_create db2 e2 tid2 cart2 nk2 hnd hlt hp hw

/-- Witness for C3: in `exDb3` order 20 is already accepted (conflict),
order 21 is free and gets accepted by waiter 1 with the configured
processing status 3; and running pay_order on the database keeps order
20 accepted by waiter 2. -/
theorem accept_order_spec_witness :
    handle_accept_order exDb3 exWaiter 20 true =
      (errResp 400 "Уже занято", exDb3, noEffects) ∧
    (∃ o2, findOrder (handle_accept_order exDb3 exWaiter 21 true).2.1 21 =
        some o2 ∧ o2.accepted_by_waiter_id = some exWaiter.id) ∧
    (∀ q ∈ (runCoreOp exDb3 exWaiter
        (CoreOp.api (ActionReq.pay_order 20 "card")) true).orders,
      q.id = exOrdAccepted.id → q.accepted_by_waiter_id = some 2) := by
  refine ⟨?_, ?_, ?_⟩
  · exact (accept_order_spec exDb3 exWaiter 20 exOrdAccepted true rfl).1 rfl
  · obtain ⟨o2, h1, h2, -, -⟩ :=
      (accept_order_spec exDb3 exWaiter 21 exOrdFree true rfl).2.1 rfl
    exact ⟨o2, h1, h2⟩
  · exact (accept_order_spec exDb3 exWaiter 20 exOrdAccepted true rfl).2.2
      exDb3 exWaiter (CoreOp.api (ActionReq.pay_order 20 "card")) true 2
      exOrdAccepted (by decide) (by decide) rfl

/-- C4: pay_order with a configured completed status moves the order to
that terminal status, records the payment method, invokes shift-linking
exactly once, invokes debt registration exactly once when the payment
method is cash and not otherwise, and appends one history entry; with no
completed status configured it answers the configuration error and the
database is untouched. -/
theorem pay_order_spec (db : DB) (e : Employee) (oid : Nat) (o : Order)
    (pm : String) (nk : Bool) (hfind : findOrder db oid = some o) :
    (∀ fs, firstCompletedStatus db = some fs →
      (∃ o2, findOrder (handle_pay_order db e oid pm nk).2.1 oid = some o2 ∧
        o2.status_id = fs.id ∧ o2.payment_method = some pm) ∧
      (handle_pay_order db e oid pm nk).2.2.shift_links = [(oid, e.id)] ∧
      (pm = "cash" →
        (handle_pay_order db e oid pm nk).2.2.debt_regs = [(oid, e.id)]) ∧
      (pm ≠ "cash" →
        (handle_pay_order db e oid pm nk).2.2.debt_regs = []) ∧
      (handle_pay_order db e oid pm nk).2.1.history =
        db.history ++ [{ order_id := oid, status_id := fs.id,
                         actor_info := e.full_name ++ " (Оплата)" }]) ∧
    (firstCompletedStatus db = none →
      handle_pay_order db e oid pm nk =
        (errResp 500 "Status config error", db, noEffects)) := by
  obtain ⟨homem, hoid⟩ := findOrder_mem hfind
  refine ⟨?_, ?_⟩
  · intro fs hfs
    have hred : (handle_pay_order db e oid pm nk).2.1 =
        addHistory (updateOrder db
          { o with
            status_id := fs.id,
            payment_method := some pm })
          o.id fs.id (e.full_name ++ " (Оплата)") := by
      simp [handle_pay_order, hfind, hfs]
    have hreff : (handle_pay_order db e oid pm nk).2.2 =
        { shift_links := [(o.id, e.id)],
          debt_regs := if pm == "cash" then [(o.id, e.id)] else [],
          notices := if nk then 1 else 0 } := by
      simp [handle_pay_order, hfind, hfs]
    refine ⟨⟨{ o with
        status_id := fs.id,
        payment_method := some pm }, ?_, rfl, rfl⟩, ?_, ?_, ?_, ?_⟩
    · rw [hred, findOrder_addHistory]
      exact findOrder_after_update _ hfind (by simpa using hoid)
    · rw [hreff, hoid]
    · intro hcash
      rw [hreff]
      simp [hcash, hoid]
    · intro hncash
      rw [hreff]
      simp [hncash]
    · rw [hred]
      simp [addHistory, updateOrder, hoid]
  · intro hfs
    simp [handle_pay_order, hfind, hfs]

/-- Witness for C4: paying order 20 cash in `exDb4` (completed status 4
configured) versus card, and the configuration error on `exDb4none`. -/
theorem pay_order_spec_witness :
    (∃ o2, findOrder (handle_pay_order exDb4 exWaiter 20 "cash" true).2.1 20 =
      some o2 ∧ o2.status_id = exStDone.id ∧ o2.payment_method = some "cash") ∧
    (handle_pay_order exDb4 exWaiter 20 "cash" true).2.2.shift_links =
      [(20, exWaiter.id)] ∧
    (handle_pay_order exDb4 exWaiter 20 "cash" true).2.2.debt_regs =
      [(20, exWaiter.id)] ∧
    (handle_pay_order exDb4 exWaiter 20 "card" true).2.2.debt_regs = [] ∧
    handle_pay_order exDb4none exWaiter 20 "cash" true =
      (errResp 500 "Status config error", exDb4none, noEffects) := by
  obtain ⟨ha, hb, hc, -, -⟩ :=
    (pay_order_spec exDb4 exWaiter 20 exOrdAccepted "cash" true rfl).1
      exStDone rfl
  obtain ⟨-, -, -, hd, -⟩ :=
    (pay_order_spec exDb4 exWaiter 20 exOrdAccepted "card" true rfl).1
      exStDone rfl
  exact ⟨ha, hb, hc rfl, hd (by decide),
    (pay_order_spec exDb4none exWaiter 20 exOrdAccepted "cash" true rfl).2 rfl⟩

/-- C6: production partitioning is disjoint and total.  For a
chef-receiving employee, an order on a chef-visible status with
`kitchen_done = false` and at least one non-bar item yields a kitchen
card showing exactly the non-bar items (symmetrically for the bar); any
card for the order shows exactly its station's filter of the items;
every item belongs to exactly one of the two filters; and an order with
no items in a station's area yields no card for that station. -/
theorem production_partition_spec (db : DB) (e : Employee) (o : Order)
    (hnd : (db.orders.map fun p => p.id).Nodup) (ho : o ∈ db.orders) :
    (e.role.can_receive_kitchen_orders = true →
      (∃ s ∈ db.statuses, s.id = o.status_id ∧ s.visible_to_chef = true) →
      o.kitchen_done = false →
      (o.items.filter fun i => !(i.preparation_area == some "bar")) ≠ [] →
      ∃ en ∈ productionOrders db e, en.order_id = o.id ∧
        en.station = Station.kitchen ∧
        en.items = o.items.filter fun i => !(i.preparation_area == some "bar")) ∧
    (e.role.can_receive_bar_orders = true →
      (∃ s ∈ db.statuses, s.id = o.status_id ∧ s.visible_to_bartender = true) →
      o.bar_done = false →
      (o.items.filter fun i => i.preparation_area == some "bar") ≠ [] →
      ∃ en ∈ productionOrders db e, en.order_id = o.id ∧
        en.station = Station.bar ∧
        en.items = o.items.filter fun i => i.preparation_area == some "bar") ∧
    (∀ en ∈ productionOrders db e, en.order_id = o.id →
      (en.station = Station.kitchen →
        en.items = o.items.filter fun i => !(i.preparation_area == some "bar")) ∧
      (en.station = Station.bar →
        en.items = o.items.filter fun i => i.preparation_area == some "bar")) ∧
    (∀ i ∈ o.items,
      (i ∈ (o.items.filter fun j => !(j.preparation_area == some "bar")) ∧
        i ∉ (o.items.filter fun j => j.preparation_area == some "bar")) ∨
      (i ∉ (o.items.filter fun j => !(j.preparation_area == some "bar")) ∧
        i ∈ (o.items.filter fun j => j.preparation_area == some "bar"))) ∧
    ((o.items.filter fun i => !(i.preparation_area == some "bar")) = [] →
      ∀ en ∈ productionOrders db e,
        ¬(en.order_id = o.id ∧ en.station = Station.kitchen)) ∧
    ((o.items.filter fun i => i.preparation_area == some "bar") = [] →
      ∀ en ∈ productionOrders db e,
        ¬(en.order_id = o.id ∧ en.station = Station.bar)) := by
  refine ⟨?_, ?_, ?_, ?_, ?_, ?_⟩
  · intro hk hvis hkd hne
    obtain ⟨s, hs, hsid, hv⟩ := hvis
    have hcont : (chefVisibleIds db).contains o.status_id = true := by
      simpa using mem_chefVisibleIds.mpr ⟨s, hs, hsid, hv⟩
    exact ⟨_, mem_productionOrders.mpr
      (Or.inl ⟨hk, mem_kitchenEntries.mpr ⟨o, ho, hcont, hkd, hne, rfl⟩⟩),
      rfl, rfl, rfl⟩
  · intro hb hvis hbd hne
    obtain ⟨s, hs, hsid, hv⟩ := hvis
    have hcont : (barVisibleIds db).contains o.status_id = true := by
      simpa using mem_barVisibleIds.mpr ⟨s, hs, hsid, hv⟩
    exact ⟨_, mem_productionOrders.mpr
      (Or.inr ⟨hb, mem_barEntries.mpr ⟨o, ho, hcont, hbd, hne, rfl⟩⟩),
      rfl, rfl, rfl⟩
  · intro en hen heq
    rcases mem_productionOrders.mp hen with ⟨-, hk⟩ | ⟨-, hb⟩
    · rcases mem_kitchenEntries.mp hk with ⟨p, hp, -, -, -, rfl⟩
      have hpo : p = o := id_injective hnd hp ho (by simpa using heq)
      subst hpo
      exact ⟨fun _ => rfl, fun hst => (nomatch hst)⟩
    · rcases mem_barEntries.mp hb with ⟨p, hp, -, -, -, rfl⟩
      have hpo : p = o := id_injective hnd hp ho (by simpa using heq)
      subst hpo
      exact ⟨fun hst => (nomatch hst), fun _ => rfl⟩
  · intro i hi
    cases harea : (i.preparation_area == some "bar") with
    | false =>
      left
      constructor
      · exact List.mem_filter.mpr ⟨hi, by simp [harea]⟩
      · intro hmem
        have := (List.mem_filter.mp hmem).2
        rw [harea] at this
        cases this
    | true =>
      right
      constructor
      · intro hmem
        have := (List.mem_filter.mp hmem).2
        rw [harea] at this
        cases this
      · exact List.mem_filter.mpr ⟨hi, harea⟩
  · rintro hnil en hen ⟨heq, hst⟩
    rcases mem_productionOrders.mp hen with ⟨-, hk⟩ | ⟨-, hb⟩
    · rcases mem_kitchenEntries.mp hk with ⟨p, hp, -, -, hpne, rfl⟩
      have hpo : p = o := id_injective hnd hp ho (by simpa using heq)
      subst hpo
      exact hpne hnil
    · rcases mem_barEntries.mp hb with ⟨p, hp, -, -, -, rfl⟩
      cases hst
  · rintro hnil en hen ⟨heq, hst⟩
    rcases mem_productionOrders.mp hen with ⟨-, hk⟩ | ⟨-, hb⟩
    · rcases mem_kitchenEntries.mp hk with ⟨p, hp, -, -, -, rfl⟩
      cases hst
    · rcases mem_barEntries.mp hb with ⟨p, hp, -, -, hpne, rfl⟩
      have hpo : p = o := id_injective hnd hp ho (by simpa using heq)
      subst hpo
      exact hpne hnil

/-- Witness for C6 at the spec's example: order 7 with Soup (kitchen)
and Cola x2 (bar) appears in the chef queue showing only Soup x1 and in
the bartender queue showing only Cola x2. -/
theorem production_partition_spec_witness :
    (∃ en ∈ productionOrders exDb6 exChefBoth, en.order_id = exOrd7.id ∧
      en.station = Station.kitchen ∧ en.items = [exSoup]) ∧
    (∃ en ∈ productionOrders exDb6 exChefBoth, en.order_id = exOrd7.id ∧
      en.station = Station.bar ∧ en.items = [exCola]) := by
  obtain ⟨hk, hb, -, -, -, -⟩ :=
    production_partition_spec exDb6 exChefBoth exOrd7 (by decide) (by decide)
  constructor
  · obtain ⟨en, hen, h1, h2, h3⟩ :=
      hk rfl ⟨exStNew, by decide, by decide, by decide⟩ rfl (by decide)
    refine ⟨en, hen, h1, h2, ?_⟩
    rw [h3]
    decide
  · obtain ⟨en, hen, h1, h2, h3⟩ :=
      hb rfl ⟨exStNew, by decide, by decide, by decide⟩ rfl (by decide)
    refine ⟨en, hen, h1, h2, ?_⟩
    rw [h3]
    decide

theorem cartFold_spec (db : DB) (cart : List CartItem) (t : Rat)
    (is : List OrderItem) :
    cart.foldl (cartStep db) (t, is) =
      (t + specTotal db cart, is ++ (effectiveCart db cart).map snapshotItem) := by
  induction cart generalizing t is with
  | nil => simp [specTotal, effectiveCart]
  | cons c cs ih =>
    rw [List.foldl_cons]
    cases hp : productById db c.id with
    | none =>
      have hstep : cartStep db (t, is) c = (t, is) := by
        simp [cartStep, hp]
      rw [hstep, ih]
      simp [specTotal, effectiveCart, hp]
    | some prod =>
      by_cases hq : c.qty > 0
      · have hstep : cartStep db (t, is) c =
            (t + prod.price * (c.qty : Rat), is ++ [snapshotItem (prod, c.qty)]) := by
          simp [cartStep, hp, hq, snapshotItem]
        rw [hstep, ih]
        simp [specTotal, effectiveCart, hp, hq, add_assoc]
      · have hstep : cartStep db (t, is) c = (t, is) := by
          simp [cartStep, hp, hq]
        rw [hstep, ih]
        simp [specTotal, effectiveCart, hp, hq]

/-- C7: create_dine_in_order computes the created order's total as the
sum of resolved price × quantity over the effective cart (entries with
an unresolved product id or non-positive quantity are dropped from the
items and contribute nothing), and rejects with an error — creating
nothing — when the effective cart is empty. -/
theorem create_order_total_spec (db : DB) (e : Employee) (tid : Nat)
    (cart : List CartItem) (nk : Bool) (table : Table)
    (htable : findTable db tid = some table) (hcart : cart ≠ []) :
    (effectiveCart db cart ≠ [] →
      ∃ newOrder,
        (create_waiter_order db e tid cart nk).2.orders =
          db.orders ++ [newOrder] ∧
        newOrder.total_price = specTotal db cart ∧
        newOrder.items = (effectiveCart db cart).map snapshotItem ∧
        newOrder.accepted_by_waiter_id = some e.id) ∧
    (effectiveCart db cart = [] →
      create_waiter_order db e tid cart nk =
        (errResp 400 "Корзина пуста", db)) := by
  have hfold := cartFold_spec db cart 0 []
  rw [zero_add, List.nil_append] at hfold
  refine ⟨?_, ?_⟩
  · intro hne
    have hi : ¬ ((cart.foldl (cartStep db) (0, [])).2.isEmpty = true) := by
      rw [hfold]
      simp [hne]
    simp only [create_waiter_order, htable]
    rw [if_neg (by simpa using hcart), if_neg hi]
    refine ⟨_, rfl, ?_, ?_, rfl⟩
    · exact congrArg Prod.fst hfold
    · exact congrArg Prod.snd hfold
  · intro hnil
    have hi : (cart.foldl (cartStep db) (0, [])).2.isEmpty = true := by
      rw [hfold]
      simp [hnil]
    simp only [create_waiter_order, htable]
    rw [if_neg (by simpa using hcart), if_pos hi]

/-- Witness for C7: the example cart resolves to Soup x1 and Cola x2 for
a total of 90, and the all-filtered cart is rejected. -/
theorem create_order_total_spec_witness :
    (∃ newOrder,
      (create_waiter_order exDb7 exWaiter 3 exCart true).2.orders =
        exDb7.orders ++ [newOrder] ∧
      newOrder.total_price = specTotal exDb7 exCart ∧
      newOrder.accepted_by_waiter_id = some exWaiter.id) ∧
    specTotal exDb7 exCart = 90 ∧
    create_waiter_order exDb7 exWaiter 3 exCartBad true =
      (errResp 400 "Корзина пуста", exDb7) := by
  refine ⟨?_, ?_, ?_⟩
  · obtain ⟨no, h1, h2, -, h4⟩ :=
      (create_order_total_spec exDb7 exWaiter 3 exCart true exTbl3 rfl
        (by decide)).1 (by decide)
    exact ⟨no, h1, h2, h4⟩
  · have he : effectiveCart exDb7 exCart =
        [(exProdSoup, 1), (exProdCola, 2)] := by decide
    rw [specTotal, he]
    show exProdSoup.price * ((1 : Int) : Rat) +
      (exProdCola.price * ((2 : Int) : Rat) + 0) = 90
    norm_num [exProdSoup, exProdCola]
  · exact (create_order_total_spec exDb7 exWaiter 3 exCartBad true exTbl3 rfl
      (by decide)).2 (by decide)

/-- C8 counterexample: an employee whose password hash is unset logs in
with the literal password "admin" — the claim says an unset password is
always a 400, but the source admits the temporary admin entry. -/
theorem login_admin_backdoor :
    exEmpNoHash.password_hash = none ∧
    login_action [exEmpNoHash] verNone "050" "admin" =
      LoginResult.redirectWithCookie 1 true := ⟨rfl, rfl⟩

/-- C8 (amended): `POST /login` answers 400 exactly when the cleaned
phone digits occur in no employee's stored number, or the first matching
employee has an unset/empty password hash and the supplied password is
not "admin", or the hash is set and verification fails; in every other
case it sets the httponly session cookie for the matched employee and
redirects. -/
theorem login_spec (emps : List Employee) (verify : String → String → Bool)
    (phone password : String) :
    ((∃ msg, login_action emps verify phone password =
        LoginResult.badRequest msg) ↔
      ((∀ emp ∈ emps, phoneMatches emp.phone_number phone = false) ∨
        (∃ emp, emps.find? (fun x => phoneMatches x.phone_number phone) =
            some emp ∧
          ((hashUnset emp.password_hash = true ∧ password ≠ "admin") ∨
            (hashUnset emp.password_hash = false ∧
              verify password (emp.password_hash.getD "") = false))))) ∧
    (∀ eid ho, login_action emps verify phone password =
        LoginResult.redirectWithCookie eid ho →
      ho = true ∧ ∃ emp, emps.find?
          (fun x => phoneMatches x.phone_number phone) = some emp ∧
        eid = emp.id) := by
  unfold login_action
  cases hf : emps.find? (fun x => phoneMatches x.phone_number phone) with
  | none =>
    refine ⟨⟨fun _ => ?_, fun _ => ⟨"Пользователь не найден", rfl⟩⟩, ?_⟩
    · left
      intro emp hemp
      have := List.find?_eq_none.mp hf emp hemp
      simpa using this
    · intro eid ho h
      cases h
  | some emp =>
    dsimp only
    cases hu : hashUnset emp.password_hash with
    | true =>
      by_cases hpw : password = "admin"
      · have hb : (password == "admin") = true := by simpa using hpw
        rw [if_pos (by simp [hu]), if_pos (by simp [hb])]
        refine ⟨⟨fun ⟨msg, h⟩ => ?_, fun h => ?_⟩, ?_⟩
        · cases h
        · exfalso
          rcases h with hall | ⟨emp', hemp', hcase⟩
          · have hmem := List.mem_of_find?_eq_some hf
            have hpred := List.find?_some hf
            rw [hall emp hmem] at hpred
            cases hpred
          · cases Option.some_inj.mp hemp'
            rcases hcase with ⟨-, hno⟩ | ⟨hfalse, -⟩
            · exact hno hpw
            · rw [hu] at hfalse
              cases hfalse
        · intro eid ho h
          cases h
          exact ⟨rfl, emp, rfl, rfl⟩
      · have hb : (password == "admin") = false := by simpa using hpw
        rw [if_pos (by simp [hu]), if_neg (by simp [hb])]
        refine ⟨⟨fun _ => ?_, fun _ => ⟨"Пароль еще не установлен.", rfl⟩⟩, ?_⟩
        · right
          exact ⟨emp, rfl, Or.inl ⟨hu, hpw⟩⟩
        · intro eid ho h
          cases h
    | false =>
      cases hv : verify password (emp.password_hash.getD "") with
      | true =>
        rw [if_neg (by simp [hu]), if_pos (by simp [hv])]
        refine ⟨⟨fun ⟨msg, h⟩ => ?_, fun h => ?_⟩, ?_⟩
        · cases h
        · exfalso
          rcases h with hall | ⟨emp', hemp', hcase⟩
          · have hmem := List.mem_of_find?_eq_some hf
            have hpred := List.find?_some hf
            rw [hall emp hmem] at hpred
            cases hpred
          · cases Option.some_inj.mp hemp'
            rcases hcase with ⟨htrue, -⟩ | ⟨-, hnover⟩
            · rw [hu] at htrue
              cases htrue
            · rw [hv] at hnover
              cases hnover
        · intro eid ho h
          cases h
          exact ⟨rfl, emp, rfl, rfl⟩
      | false =>
        rw [if_neg (by simp [hu]), if_neg (by simp [hv])]
        refine ⟨⟨fun _ => ?_, fun _ => ⟨"Неверный пароль", rfl⟩⟩, ?_⟩
        · right
          exact ⟨emp, rfl, Or.inr ⟨hu, hv⟩⟩
        · intro eid ho h
          cases h

/-- Witness for the amended C8: a wrong password against the unset-hash
employee yields a 400. -/
theorem login_spec_witness :
    ∃ msg, login_action [exEmpNoHash] verNone "050" "wrong" =
      LoginResult.badRequest msg := by
  exact (login_spec [exEmpNoHash] verNone "050" "wrong").1.mpr
    (Or.inr ⟨exEmpNoHash, rfl, Or.inl ⟨rfl, by decide⟩⟩)

end StaffPWA
